import Mathlib

/-!
Verification development for the edukey-agentworks backend: a shallow
embedding of the learning-path orchestration pipeline
(`app/tasks/learning_plan_tasks_v2.py`), the question-generation workflow
(`app/tasks/question_generator.py`) and the job-status facade
(`app/main.py`), together with theorems settling the spec's claims.
-/

/-- JSON values, the shape of all data crossing the LLM trust boundary
(mirrors what Python's `json.loads` can produce). -/
inductive Json where
  | null : Json
  | bool (b : Bool) : Json
  | num (n : Int) : Json
  | str (s : String) : Json
  | arr (elems : List Json) : Json
  | obj (fields : List (String × Json)) : Json

namespace Json

/-- First value bound to key `k` in an object's field list (Python dict
lookup; `json.loads` never produces duplicate keys). -/
def lookupKey : List (String × Json) → String → Option Json
  | [], _ => none
  | (k', v) :: rest, k => if k' = k then some v else lookupKey rest k

/-- Python `d.get(k, dflt)` on a dict. -/
def dictGet (fields : List (String × Json)) (k : String) (dflt : Json) : Json :=
  match lookupKey fields k with
  | some v => v
  | none => dflt

/-- Whether key `k` occurs in a field list (Python `k in d`). -/
def hasKey (fields : List (String × Json)) (k : String) : Bool :=
  (lookupKey fields k).isSome

/-- Python `d[k] = v` on a dict: replaces the value in place when the key
exists, otherwise appends the new binding at the end. -/
def setKey : List (String × Json) → String → Json → List (String × Json)
  | [], k, v => [(k, v)]
  | (k', v') :: rest, k, v =>
      if k' = k then (k, v) :: rest else (k', v') :: setKey rest k v

/-- Python `d.update(other)`: each binding of `other`, in order, is stored
into `d` with dict assignment semantics. -/
def dictUpdate (d other : List (String × Json)) : List (String × Json) :=
  other.foldl (fun acc kv => setKey acc kv.1 kv.2) d

/-- Python truthiness of a JSON value (`None`, `False`, `0`, `""`, `[]`,
`{}` are falsy). -/
def pyTruthy : Json → Bool
  | .null => false
  | .bool b => b
  | .num n => n != 0
  | .str s => s != ""
  | .arr xs => !xs.isEmpty
  | .obj fs => !fs.isEmpty

/-- Python `len`: defined on strings, lists and dicts; raises `TypeError`
(modelled as `none`) otherwise. -/
def pyLen : Json → Option Nat
  | .str s => some s.length
  | .arr xs => some xs.length
  | .obj fs => some fs.length
  | _ => none

/-- Python iteration over a JSON value: lists yield their elements,
strings their one-character substrings, dicts their keys; other values
raise `TypeError` (modelled as `none`). -/
def pyIter : Json → Option (List Json)
  | .arr xs => some xs
  | .str s => some (s.toList.map fun c => Json.str (String.mk [c]))
  | .obj fs => some (fs.map fun kv => Json.str kv.1)
  | _ => none

/-- Object field lookup on an arbitrary JSON value (`none` on non-objects
and missing keys). -/
def objLookup : Json → String → Option Json
  | .obj fs, k => lookupKey fs k
  | _, _ => none

/-- The STEP-4 skeleton guard of the pipeline: the parsed skeleton must be
a dict with at least one key. -/
def isNonEmptyObj : Json → Bool
  | .obj (_ :: _) => true
  | _ => false

/-- Python `str()` of a JSON value, used only inside interpolated log/text
strings (never branches control flow). -/
def pyStr : Json → String
  | .null => "None"
  | .bool b => if b then "True" else "False"
  | .num n => toString n
  | .str s => s
  | .arr _ => "[...]"
  | .obj _ => "{...}"

end Json

/-- Sequential traversal of a list under `Option`: the first `none`
aborts the whole traversal (a raised exception inside a `for` loop). -/
def optionTraverse (f : α → Option β) : List α → Option (List β)
  | [] => some []
  | x :: xs => (f x).bind fun y => (optionTraverse f xs).map fun ys => y :: ys

/-- In-order concatenation of a list of text chunks. -/
def concatAll : List String → String
  | [] => ""
  | s :: rest => s ++ concatAll rest

/-! ## Learning-path pipeline (`app/tasks/learning_plan_tasks_v2.py`) -/

/-- Identifies one LLM chat-completion call of `create_learning_path_v2`:
the STEP-1 search call, the STEP-2 skeleton call, the STEP-3 visit of the
`i`-th url, the STEP-4a details call for the `i`-th topic, and the STEP-4b
content call for the `j`-th concept of the `i`-th topic. -/
inductive CallTag where
  | search
  | skeleton
  | visit (i : Nat)
  | topicDetails (i : Nat)
  | conceptContent (i j : Nat)

/-- Collaborator environment for one pipeline execution. `groqApiKey`
models `os.getenv("GROQ_API_KEY")`; `call` models one
`client.chat.completions.create` call (`none` = the call raised, `some c`
= it returned with message content `c`, where `c = none` models a null
content field); `parse` models `json.loads` (`none` = it raised). -/
structure LlmEnv where
  groqApiKey : Option String
  call : CallTag → Option (Option String)
  parse : String → Option Json

/-- Model of `json.loads` applied to an optional content field: null content makes
`json.loads` raise, exactly like a parse error. -/
def parseContent (env : LlmEnv) : Option String → Option Json
  | none => none
  | some c => env.parse c

/-- STEP 1 of `create_learning_path_v2` (SourceDiscovery). Any exception
in the `try` (transport, `json.loads`, `.get` on a non-dict) is caught and
leaves `urls` at its initial `[]`; a falsy content field skips parsing. -/
def step1Urls (env : LlmEnv) : Json :=
  match env.call .search with
  | none => .arr []
  | some content =>
    match content with
    | none => .arr []
    | some c =>
      if c = "" then .arr []
      else
        match env.parse c with
        | none => .arr []
        | some (.obj fs) => Json.dictGet fs "urls" (.arr [])
        | some _ => .arr []

/-- One knowledge-base entry, exactly the f-string appended in STEP 3; a
falsy content field is replaced by `"No summary available."` by the `or`. -/
def kbEntry (url : Json) (content : Option String) : String :=
  let summary :=
    match content with
    | none => "No summary available."
    | some s => if s = "" then "No summary available." else s
  "--- Source from " ++ Json.pyStr url ++ " ---\n" ++ summary ++ "\n\n"

/-- STEP 3 (KnowledgeAcquisition) loop over the enumerated url list: a
visit whose call raises is caught and skipped; a successful one appends
its `(url, summary)` entry to the accumulating string. -/
def buildKnowledgeBase (env : LlmEnv) (urls : List Json) : String :=
  (urls.enum).foldl
    (fun kb iu =>
      match env.call (.visit iu.1) with
      | none => kb
      | some content => kb ++ kbEntry iu.2 content)
    ""

/-- Parsed outcome of the STEP-4a details call for topic `i` (`none` when
the call or `json.loads` raised; both are caught and skip the update). -/
def detailsOutcome (env : LlmEnv) (i : Nat) : Option Json :=
  (env.call (.topicDetails i)).bind (parseContent env)

/-- Parsed outcome of the STEP-4b content call for concept `j` of topic
`i` (`none` when the call or `json.loads` raised). -/
def conceptOutcome (env : LlmEnv) (i j : Nat) : Option Json :=
  (env.call (.conceptContent i j)).bind (parseContent env)

/-- STEP 4b for one concept: reading `concept_name` via `.get` requires a
dict (a non-dict raises to the top-level handler, modelled `none`); the
call and parse sit inside a `try` whose failure skips the update; a parsed
value is merged in place by `dict.update` only when it is a dict holding
both `"reading_material"` and `"mcqs"`. -/
def updateConcept (env : LlmEnv) (i j : Nat) : Json → Option Json
  | .obj cfs =>
      match conceptOutcome env i j with
      | some (.obj gfs) =>
          if Json.hasKey gfs "reading_material" && Json.hasKey gfs "mcqs" then
            some (.obj (Json.dictUpdate cfs gfs))
          else some (.obj cfs)
      | _ => some (.obj cfs)
  | _ => none

/-- STEP 4a merge for one topic node's field list: a parsed details dict
is merged by `dict.update` (any dict passes the `isinstance` validation);
every other outcome skips the update. -/
def topicFields1 (env : LlmEnv) (i : Nat) (tfs : List (String × Json)) :
    List (String × Json) :=
  match detailsOutcome env i with
  | some (.obj dfs) => Json.dictUpdate tfs dfs
  | _ => tfs

/-- STEP 4a and 4b for one topic node, continued: after the 4a merge,
each element of the (possibly just updated) `"concepts"` list is
elaborated in order — 4b is skipped entirely when `"concepts"` is absent
or not a list. -/
def updateTopic (env : LlmEnv) (i : Nat) : Json → Option Json
  | .obj tfs =>
      match Json.lookupKey (topicFields1 env i tfs) "concepts" with
      | some (.arr cs) =>
          (optionTraverse (fun jc => updateConcept env i jc.1 jc.2) cs.enum).map
            (fun cs' => Json.obj (Json.setKey (topicFields1 env i tfs) "concepts" (.arr cs')))
      | _ => some (.obj (topicFields1 env i tfs))
  | _ => none

/-- STEP 4 guard and loop plus STEP 5 (Finalize): aborts (`return None`)
unless the skeleton is a non-empty dict; iterates the first chapter's
value elaborating each topic in order (an uncaught raise inside the loop
reaches the top-level handler, modelled `none`); STEP 5 assembles
`{"topic": chapter_key, "content": learning_path[chapter_key]}` from the
same, now updated, chapter value. -/
def v2Populate (env : LlmEnv) (learning_path : Json) : Option Json :=
  match learning_path with
  | .obj [] => none
  | .obj ((chapterKey, chapterVal) :: _) => do
      let elems ← Json.pyIter chapterVal
      let elems' ← optionTraverse (fun it => updateTopic env it.1 it.2) elems.enum
      let content :=
        match chapterVal with
        | .arr _ => Json.arr elems'
        | v => v
      some (.obj [("topic", .str chapterKey), ("content", content)])
  | _ => none

/-- The pipeline from the STEP-1 result onward: the `len(urls)` log line
raises on a non-sized value (top-level `none`); STEP 2
(SkeletonGeneration) failing to produce a parsed value hits
`return None`; STEP 3 builds the knowledge base, raising only when `urls`
is truthy but not iterable; then STEP 4/5. -/
def v2AfterSearch (env : LlmEnv) (urls : Json) : Option Json := do
  let _ ← Json.pyLen urls
  let learning_path ← (env.call .skeleton).bind (parseContent env)
  let _kb ←
    if Json.pyTruthy urls then (Json.pyIter urls).map (buildKnowledgeBase env)
    else some ""
  v2Populate env learning_path

/-- Embedding of `create_learning_path_v2(payload)`: unpack `topic` (a falsy value
raises `ValueError`, caught by the top-level handler) and the API key
(missing or empty raises likewise); `detail_level` only feeds prompt text.
The whole body sits in a `try/except` returning `None` on any exception,
so the embedding is total, with `none` covering both the explicit
`return None` aborts and every uncaught raise. -/
def create_learning_path_v2 (env : LlmEnv) (payload : List (String × Json)) : Option Json :=
  let topic := Json.dictGet payload "topic" .null
  if !(Json.pyTruthy topic) then none
  else
    match env.groqApiKey with
    | none => none
    | some k =>
      if k = "" then none
      else v2AfterSearch env (step1Urls env)

/-! ## Job envelope and status facade (`app/main.py`, Celery runtime) -/

/-- Outcome of one Python task execution: it either returns a value or
raises past its own body. -/
inductive PyOutcome (α : Type) where
  | returns (v : α)
  | raises

/-- One execution of `create_learning_path_v2` as seen by the queue
runtime: the top-level `except Exception` means the function always
returns (possibly `None`). -/
def v2Run (env : LlmEnv) (payload : List (String × Json)) : PyOutcome (Option Json) :=
  .returns (create_learning_path_v2 env payload)

/-- Native Celery task states surfaced by `AsyncResult.status`. -/
inductive CeleryState where
  | pending
  | started
  | retryState
  | success
  | failure
  | revoked
  deriving DecidableEq

/-- Terminal native state Celery records for a finished task execution
with no retry pending: a return is SUCCESS, an uncaught raise FAILURE. -/
def terminalStateOf : PyOutcome α → CeleryState
  | .returns _ => .success
  | .raises => .failure

/-- The literal `status_mapping` dict of `get_job_status` together with
its `.get(status, "unknown")` default. -/
def statusMapping : CeleryState → String
  | .pending => "queued"
  | .started => "running"
  | .success => "completed"
  | .failure => "failed"
  | _ => "unknown"

/-- Model of `task_result.ready()`: Celery's ready states are SUCCESS, FAILURE and
REVOKED. -/
def celeryReady : CeleryState → Bool
  | .success => true
  | .failure => true
  | .revoked => true
  | _ => false

/-- Body of `GET /jobs/{job_id}` for a job whose native state is `st` and
whose stored backend value is `stored`: status through `statusMapping`,
result surfaced only when `ready()`. -/
def get_job_status (st : CeleryState) (stored : Option Json) : String × Option Json :=
  (statusMapping st, if celeryReady st then stored else none)

/-- Modelled from Celery's documented backend semantics (an external
collaborator of this repository): `AsyncResult.status` for a task id with
no backend record is PENDING — "any task id that is not known is implied
to be in the pending state". -/
def nativeStatusOf (store : List (String × CeleryState)) (id : String) : CeleryState :=
  match store.lookup id with
  | some st => st
  | none => .pending

/-! ## Question-generation workflow (`app/tasks/question_generator.py`) -/

/-- The fixed `SUBJECT_ID_MAP` lookup table. -/
def SUBJECT_ID_MAP : List (String × String) :=
  [("Physics", "68c97d193c5fb93d44667a6c"),
   ("Chemistry", "68cbc78bcd2937d0d4dda433"),
   ("Mathematics", "68cbc7abcd2937d0d4dda434")]

/-- The `MCQOptions` pydantic model: four required string fields. -/
structure MCQOptions where
  A : String
  B : String
  C : String
  D : String
  deriving DecidableEq

/-- The `MCQQuestion` pydantic model. -/
structure MCQQuestion where
  question : String
  options : MCQOptions
  correct_answer : String
  explanation : String
  deriving DecidableEq

/-- The `Literal["easy", "medium", "hard"]` type of the difficulty field. -/
inductive Difficulty where
  | easy
  | medium
  | hard
  deriving DecidableEq

/-- The `ExtractedMetadata` pydantic model: note `subject` is a plain
`str` field. -/
structure ExtractedMetadata where
  subject : String
  difficulty : Difficulty
  tags : List String
  deriving DecidableEq

/-- Validation of a pydantic `str` field on parsed-JSON input: only a
JSON string passes (pydantic v2 does not coerce numbers to `str`). -/
def asStr : Option Json → Option String
  | some (.str s) => some s
  | _ => none

/-- Embedding of `MCQOptions.model_validate`: the input must be a dict with the four
string fields A–D; extra keys are ignored, any missing or non-string
field rejects the value. -/
def validateMCQOptions : Json → Option MCQOptions
  | .obj fs => do
      let a ← asStr (Json.lookupKey fs "A")
      let b ← asStr (Json.lookupKey fs "B")
      let c ← asStr (Json.lookupKey fs "C")
      let d ← asStr (Json.lookupKey fs "D")
      some ⟨a, b, c, d⟩
  | _ => none

/-- The `pattern="^[A-D]$"` constraint on `correct_answer`: the whole
string is a single character A–D. -/
def matchesAD (s : String) : Bool :=
  s = "A" || s = "B" || s = "C" || s = "D"

/-- Embedding of `MCQQuestion.model_validate` on parsed JSON: all four fields are
required (extra keys ignored), `options` validates the nested model,
`correct_answer` must match `^[A-D]$`; any single failing field rejects
the whole value. -/
def validateMCQQuestion : Json → Option MCQQuestion
  | .obj fs => do
      let q ← asStr (Json.lookupKey fs "question")
      let opts ← (Json.lookupKey fs "options").bind validateMCQOptions
      let ca ← asStr (Json.lookupKey fs "correct_answer")
      if matchesAD ca then
        let ex ← asStr (Json.lookupKey fs "explanation")
        some ⟨q, opts, ca, ex⟩
      else none
  | _ => none

/-- The `difficulty` literal: exactly one of the three strings passes. -/
def asDifficulty : Option Json → Option Difficulty
  | some (.str s) =>
      if s = "easy" then some .easy
      else if s = "medium" then some .medium
      else if s = "hard" then some .hard
      else none
  | _ => none

/-- Extractor for one element of a `List[str]` field: only a JSON string
passes. -/
def strOf : Json → Option String
  | .str s => some s
  | _ => none

/-- A `List[str]` field: a JSON array whose elements are all strings. -/
def asStrList : Option Json → Option (List String)
  | some (.arr xs) => optionTraverse strOf xs
  | _ => none

/-- Embedding of `ExtractedMetadata.model_validate`: `subject` is a plain `str` field —
any JSON string passes — while `difficulty` must be one of the three
literals and `tags` a list of strings. -/
def validateExtractedMetadata : Json → Option ExtractedMetadata
  | .obj fs => do
      let s ← asStr (Json.lookupKey fs "subject")
      let d ← asDifficulty (Json.lookupKey fs "difficulty")
      let t ← asStrList (Json.lookupKey fs "tags")
      some ⟨s, d, t⟩
  | _ => none

/-- Model of `validated_mcq.options.model_dump().items()`: pydantic dumps the
fields in declaration order A, B, C, D. -/
def optionItems (o : MCQOptions) : List (String × String) :=
  [("A", o.A), ("B", o.B), ("C", o.C), ("D", o.D)]

/-- One entry of the transformed options list. -/
structure OptionOut where
  text : String
  isCorrect : Bool
  deriving DecidableEq

/-- The Step-C list comprehension: one `{text, isCorrect}` per dumped
option, in dump order, `isCorrect` iff the key equals `correct_answer`. -/
def transformed_options (m : MCQQuestion) : List OptionOut :=
  (optionItems m.options).map fun kt => ⟨kt.2, kt.1 == m.correct_answer⟩

/-- String form of a difficulty literal, as dumped into the result. -/
def Difficulty.toName : Difficulty → String
  | .easy => "easy"
  | .medium => "medium"
  | .hard => "hard"

/-- The assembled `final_document` of Step C: the `subject` field carries
`SUBJECT_ID_MAP.get(validated_metadata.subject)`, hence null when the
subject is unmapped (no error is raised). -/
def final_document (m : MCQQuestion) (md : ExtractedMetadata) : Json :=
  .obj
    [("text", .str m.question),
     ("imageUrl", .null),
     ("options", .arr ((transformed_options m).map fun o =>
        .obj [("text", .str o.text), ("isCorrect", .bool o.isCorrect)])),
     ("difficulty", .str md.difficulty.toName),
     ("subject",
       match SUBJECT_ID_MAP.lookup md.subject with
       | some i => .str i
       | none => .null),
     ("tags", .arr (md.tags.map .str))]

/-- The task's return value `{question_data, explanation}`. -/
def task_output (m : MCQQuestion) (md : ExtractedMetadata) : Json :=
  .obj [("question_data", final_document m md), ("explanation", .str m.explanation)]

/-- The two LLM calls of `generate_question`. -/
inductive QCallTag where
  | mcq
  | metadata

/-- Collaborator environment for one `generate_question` execution, with
the same conventions as `LlmEnv`. -/
structure QEnv where
  groqApiKey : Option String
  call : QCallTag → Option (Option String)
  parse : String → Option Json

/-- Outcome of one execution of the `generate_question` body: success, or
an exception routed to `self.retry` — by the first handler for
`ValidationError`/`JSONDecodeError`, by the generic handler for anything
else (missing payload key raises `ValidationError` too; a missing API key
makes the `Groq` constructor raise; null content makes `json.loads` raise
`TypeError`). Both handlers call `self.retry`, so the two retry kinds
differ only in logging. -/
inductive QOutcome where
  | success (out : Json)
  | retryValidation
  | retryOther

/-- Whether an execution outcome is a success. -/
def QOutcome.isSuccess : QOutcome → Bool
  | .success _ => true
  | _ => false

/-- One execution of the `generate_question` task body: payload
validation (`query` must be a string), client construction, Step A
(call → `json.loads` → `MCQQuestion.model_validate`), Step B
(call → `json.loads` → `ExtractedMetadata.model_validate`), then the pure
Step-C transform. -/
def generate_question_once (env : QEnv) (payload : List (String × Json)) : QOutcome :=
  match asStr (Json.lookupKey payload "query") with
  | none => .retryValidation
  | some _q =>
    match env.groqApiKey with
    | none => .retryOther
    | some _ =>
      match env.call .mcq with
      | none => .retryOther
      | some none => .retryOther
      | some (some ctext) =>
        match env.parse ctext with
        | none => .retryValidation
        | some mcqJson =>
          match validateMCQQuestion mcqJson with
          | none => .retryValidation
          | some m =>
            match env.call .metadata with
            | none => .retryOther
            | some none => .retryOther
            | some (some mdText) =>
              match env.parse mdText with
              | none => .retryValidation
              | some mdJson =>
                match validateExtractedMetadata mdJson with
                | none => .retryValidation
                | some md => .success (task_output m md)

/-- The Celery retry driver of `@celery_app.task(bind=True, max_retries=3,
default_retry_delay=15)`: execution `k` runs with `self.request.retries =
k`; a failing execution calls `self.retry`, which re-queues the task with
`retries = k + 1` when `k + 1 ≤ max_retries` and otherwise re-raises the
exception, ending the job in FAILURE. `remaining` is the retry budget
still available, `max_retries - k`; the pair returned is the terminal
native state and the total number of executions performed. -/
def celeryRetryGo (attempt : Nat → QOutcome) : Nat → Nat → CeleryState × Nat
  | 0, k =>
    match attempt k with
    | .success _ => (.success, k + 1)
    | _ => (.failure, k + 1)
  | r + 1, k =>
    match attempt k with
    | .success _ => (.success, k + 1)
    | _ => celeryRetryGo attempt r (k + 1)

/-- A whole retried job, starting from `retries = 0` with the full retry
budget `max_retries` remaining. -/
def celeryRetryRun (attempt : Nat → QOutcome) (maxRetries : Nat) : CeleryState × Nat :=
  celeryRetryGo attempt maxRetries 0

/-- A full `generate_question` job: execution `k` runs the task body
against environment `envs k`; `max_retries = 3` as in the decorator. -/
def generate_question_job (envs : Nat → QEnv) (payload : List (String × Json)) :
    CeleryState × Nat :=
  celeryRetryRun (fun k => generate_question_once (envs k) payload) 3

/-! ## Concrete fixtures used by the claim theorems -/

/-- Payload `{"topic": "Rotational Motion"}`. -/
def payloadRot : List (String × Json) := [("topic", .str "Rotational Motion")]

/-- Environment whose every step behaves well except SkeletonGeneration,
whose call raises a transport failure. -/
def envSkelFail : LlmEnv where
  groqApiKey := some "key"
  call := fun t =>
    match t with
    | .skeleton => none
    | _ => some (some "search")
  parse := fun c =>
    if c = "search" then some (.obj [("urls", .arr [.str "http://a"])]) else none

/-- Environment in which every LLM call raises a transport failure. -/
def envAllFail : LlmEnv where
  groqApiKey := some "key"
  call := fun _ => none
  parse := fun _ => none

/-- Environment with no GROQ_API_KEY set. -/
def envNoKey : LlmEnv where
  groqApiKey := none
  call := fun _ => none
  parse := fun _ => none

/-- Field list of a one-topic, one-concept skeleton node with the empty
leaf fields the structure prompt requests. -/
def topic0fields : List (String × Json) :=
  [("topic_name", .str "T"),
   ("prerequisites", .arr []),
   ("problem_solving_tips", .arr []),
   ("common_pitfalls", .arr []),
   ("concepts", .arr
     [.obj [("concept_name", .str "C"), ("reading_material", .str ""), ("mcqs", .arr [])]])]

/-- Environment whose skeleton call yields the one-topic skeleton and
whose STEP-4a details call answers with a dict redefining `topic_name`. -/
def envShape : LlmEnv where
  groqApiKey := some "key"
  call := fun t =>
    match t with
    | .search => none
    | .skeleton => some (some "skel")
    | .topicDetails _ => some (some "det")
    | _ => none
  parse := fun c =>
    if c = "skel" then some (.obj [("Chapter", .arr [.obj topic0fields])])
    else if c = "det" then some (.obj [("topic_name", .str "evil")])
    else none

/-- Environment whose search response carries a wrong-typed `urls` value
(`{"urls": 5}`) and whose skeleton call would succeed. -/
def envBadUrls : LlmEnv where
  groqApiKey := some "key"
  call := fun t =>
    match t with
    | .search => some (some "srch")
    | .skeleton => some (some "skel")
    | _ => none
  parse := fun c =>
    if c = "srch" then some (.obj [("urls", .num 5)])
    else if c = "skel" then some (.obj [("Chapter", .arr [.obj topic0fields])])
    else none

/-- Environment whose search response carries a string-typed `urls` value
(`{"urls": "ab"}`) and whose skeleton call succeeds. -/
def envStrUrls : LlmEnv where
  groqApiKey := some "key"
  call := fun t =>
    match t with
    | .search => some (some "srch")
    | .skeleton => some (some "skel")
    | _ => none
  parse := fun c =>
    if c = "srch" then some (.obj [("urls", .str "ab")])
    else if c = "skel" then some (.obj [("Chapter", .arr [.obj topic0fields])])
    else none

/-- Environment whose elaboration calls answer with exactly the requested
leaf keys. -/
def envGoodFill : LlmEnv where
  groqApiKey := some "key"
  call := fun t =>
    match t with
    | .search => none
    | .skeleton => some (some "skel")
    | .topicDetails _ => some (some "det")
    | .visit _ => none
    | .conceptContent _ _ => some (some "con")
  parse := fun c =>
    if c = "skel" then some (.obj [("Chapter", .arr [.obj topic0fields])])
    else if c = "det" then
      some (.obj
        [("prerequisites", .arr [.str "p"]),
         ("problem_solving_tips", .arr [.str "s"]),
         ("common_pitfalls", .arr [.str "c"])])
    else if c = "con" then
      some (.obj [("reading_material", .str "r"), ("mcqs", .arr [.str "m"])])
    else none

/-- The topic node of `topic0fields` after elaboration under
`envGoodFill`. -/
def topic0filled : Json :=
  .obj
    [("topic_name", .str "T"),
     ("prerequisites", .arr [.str "p"]),
     ("problem_solving_tips", .arr [.str "s"]),
     ("common_pitfalls", .arr [.str "c"]),
     ("concepts", .arr
       [.obj [("concept_name", .str "C"), ("reading_material", .str "r"),
              ("mcqs", .arr [.str "m"])]])]

/-- Question-generation environment whose every call returns text that is
not valid JSON. -/
def qEnvBadJson : QEnv where
  groqApiKey := some "key"
  call := fun _ => some (some "not json")
  parse := fun _ => none

/-- Question-generation environment with no GROQ_API_KEY set. -/
def qEnvNoKey : QEnv where
  groqApiKey := none
  call := fun _ => some (some "ok")
  parse := fun _ => some .null

/-- A benign question-generation environment, used with payloads that are
missing their required `query`. -/
def qEnvAny : QEnv where
  groqApiKey := some "key"
  call := fun _ => some (some "ok")
  parse := fun _ => some .null

/-- Field list of a fully valid parsed MCQ response. -/
def mcqGoodFields : List (String × Json) :=
  [("question", .str "Q"),
   ("options", .obj [("A", .str "a"), ("B", .str "b"), ("C", .str "c"), ("D", .str "d")]),
   ("correct_answer", .str "B"),
   ("explanation", .str "E")]

/-- The validated value of `mcqGoodFields`. -/
def mcqGood : MCQQuestion := ⟨"Q", ⟨"a", "b", "c", "d"⟩, "B", "E"⟩

/-- Field list of a parsed metadata response whose subject lies outside
the prompt's advertised set. -/
def biologyMeta : List (String × Json) :=
  [("subject", .str "Biology"), ("difficulty", .str "medium"), ("tags", .arr [.str "t"])]

/-- The validated value of `biologyMeta`. -/
def biologyMd : ExtractedMetadata := ⟨"Biology", .medium, ["t"]⟩

/-- Question-generation environment returning a valid MCQ and metadata
whose subject `"Biology"` is absent from `SUBJECT_ID_MAP`. -/
def qEnvBio : QEnv where
  groqApiKey := some "key"
  call := fun t =>
    match t with
    | .mcq => some (some "mcq")
    | .metadata => some (some "meta")
  parse := fun c =>
    if c = "mcq" then some (.obj mcqGoodFields)
    else if c = "meta" then some (.obj biologyMeta)
    else none

/-- Payload `{"query": "JEE physics"}`. -/
def qPayload : List (String × Json) := [("query", .str "JEE physics")]


/-! ## Helper lemmas -/

/-- Looking a key up after a dict assignment: the assigned key reads the
new value, every other key is untouched. -/
theorem lookupKey_setKey (d : List (String × Json)) (k k' : String) (v : Json) :
    Json.lookupKey (Json.setKey d k' v) k =
      if k' = k then some v else Json.lookupKey d k := by
  induction d with
  | nil => simp only [Json.setKey, Json.lookupKey]
  | cons kv rest ih =>
      obtain ⟨a, b⟩ := kv
      by_cases h1 : a = k' <;> by_cases h2 : k' = k <;>
        simp_all [Json.setKey, Json.lookupKey]

/-- Unfolding one step of `dict.update`. -/
theorem dictUpdate_cons (d : List (String × Json)) (kv : String × Json)
    (rest : List (String × Json)) :
    Json.dictUpdate d (kv :: rest) = Json.dictUpdate (Json.setKey d kv.1 kv.2) rest := rfl

/-- Keys that the updating dict does not mention read the same value
before and after `dict.update`. -/
theorem lookupKey_dictUpdate_of_notMem (d other : List (String × Json)) (k : String)
    (h : ∀ kv ∈ other, kv.1 ≠ k) :
    Json.lookupKey (Json.dictUpdate d other) k = Json.lookupKey d k := by
  induction other generalizing d with
  | nil => rfl
  | cons kv rest ih =>
      rw [dictUpdate_cons, ih _ (fun kv2 hm => h kv2 (List.mem_cons_of_mem _ hm)),
        lookupKey_setKey, if_neg (h kv (List.mem_cons_self _ _))]

/-- Unfolding one step of `optionTraverse`. -/
theorem optionTraverse_cons (f : α → Option β) (x : α) (xs : List α) :
    optionTraverse f (x :: xs) =
      (f x).bind fun y => (optionTraverse f xs).map fun ys => y :: ys := rfl

/-- Inversion for a successful traversal of an enumerated list: lengths
agree and the function succeeded pointwise, at matching indices. -/
theorem optionTraverse_enumFrom_some {f : Nat × α → Option β} :
    ∀ (xs : List α) (s : Nat) (ys : List β),
      optionTraverse f (List.enumFrom s xs) = some ys →
      ys.length = xs.length ∧
      ∀ n (hn : n < xs.length) (hn' : n < ys.length),
        f (s + n, xs.get ⟨n, hn⟩) = some (ys.get ⟨n, hn'⟩) := by
  intro xs
  induction xs with
  | nil =>
      intro s ys h
      simp only [List.enumFrom, optionTraverse] at h
      cases h
      exact ⟨rfl, fun n hn _ => absurd hn (Nat.not_lt_zero n)⟩
  | cons x xs ih =>
      intro s ys h
      rw [List.enumFrom_cons, optionTraverse_cons] at h
      rcases hfx : f (s, x) with _ | y <;> rw [hfx] at h
      · simp at h
      · rcases ht : optionTraverse f (List.enumFrom (s + 1) xs) with _ | ys0 <;>
          rw [ht] at h
        · simp at h
        · simp only [Option.some_bind, Option.map_some] at h
          cases h
          obtain ⟨hlen, hidx⟩ := ih (s + 1) ys0 ht
          refine ⟨by simp [hlen], fun n hn hn' => ?_⟩
          cases n with
          | zero => simpa using hfx
          | succ m =>
              have hm : m < xs.length := by
                simpa using Nat.lt_of_succ_lt_succ hn
              have hm' : m < ys0.length := by
                simpa using Nat.lt_of_succ_lt_succ hn'
              have := hidx m hm hm'
              have harith : s + 1 + m = s + (m + 1) := by omega
              simpa [harith] using this

/-- Specialisation of traversal inversion to `List.enum`. -/
theorem optionTraverse_enum_some {f : Nat × α → Option β} {xs : List α} {ys : List β}
    (h : optionTraverse f xs.enum = some ys) :
    ys.length = xs.length ∧
    ∀ n (hn : n < xs.length) (hn' : n < ys.length),
      f (n, xs.get ⟨n, hn⟩) = some (ys.get ⟨n, hn'⟩) := by
  obtain ⟨h1, h2⟩ := optionTraverse_enumFrom_some xs 0 ys h
  refine ⟨h1, fun n hn hn' => ?_⟩
  simpa using h2 n hn hn'

/-- Inversion for a validated `str` field. -/
theorem asStr_eq_some {o : Option Json} {s : String} :
    asStr o = some s ↔ o = some (.str s) := by
  cases o with
  | none => simp [asStr]
  | some j => cases j <;> simp [asStr]

/-- Inversion for a validated `Literal` difficulty field. -/
theorem asDifficulty_eq_some {o : Option Json} {d : Difficulty}
    (h : asDifficulty o = some d) : o = some (.str d.toName) := by
  cases o with
  | none => simp [asDifficulty] at h
  | some j =>
      cases j with
      | str s =>
          simp only [asDifficulty] at h
          split_ifs at h with h1 h2 h3
          · injection h with h4
            subst h4
            subst h1
            rfl
          · injection h with h4
            subst h4
            subst h2
            rfl
          · injection h with h4
            subst h4
            subst h3
            rfl
      | null => simp [asDifficulty] at h
      | bool b => simp [asDifficulty] at h
      | num n => simp [asDifficulty] at h
      | arr xs => simp [asDifficulty] at h
      | obj fs => simp [asDifficulty] at h

/-- Successful traversal with `strOf` forces the list to be the image of
its extracted strings. -/
theorem optionTraverse_strOf_some :
    ∀ {xs : List Json} {ts : List String},
      optionTraverse strOf xs = some ts → xs = ts.map Json.str := by
  intro xs
  induction xs with
  | nil =>
      intro ts h
      simp only [optionTraverse] at h
      cases h
      rfl
  | cons x xs ih =>
      intro ts h
      rw [optionTraverse_cons] at h
      cases x <;> simp only [strOf] at h
      case str s =>
        rcases ht : optionTraverse strOf xs with _ | ts0 <;> rw [ht] at h
        · simp at h
        · simp only [Option.some_bind, Option.map_some] at h
          cases h
          simp [ih ht]
      all_goals simp at h

/-- Inversion for a validated `List[str]` field. -/
theorem asStrList_eq_some {o : Option Json} {ts : List String}
    (h : asStrList o = some ts) : o = some (.arr (ts.map Json.str)) := by
  cases o with
  | none => simp [asStrList] at h
  | some j =>
      cases j with
      | arr xs =>
          simp only [asStrList] at h
          rw [optionTraverse_strOf_some h]
      | null => simp [asStrList] at h
      | bool b => simp [asStrList] at h
      | num n => simp [asStrList] at h
      | str s => simp [asStrList] at h
      | obj fs => simp [asStrList] at h

/-- Inversion for a successfully validated MCQ value: every required
field was present and valid, and populates the validated value. -/
theorem validateMCQQuestion_some_inv {fs : List (String × Json)} {m : MCQQuestion}
    (h : validateMCQQuestion (.obj fs) = some m) :
    Json.lookupKey fs "question" = some (.str m.question) ∧
    (Json.lookupKey fs "options").bind validateMCQOptions = some m.options ∧
    Json.lookupKey fs "correct_answer" = some (.str m.correct_answer) ∧
    matchesAD m.correct_answer = true ∧
    Json.lookupKey fs "explanation" = some (.str m.explanation) := by
  simp only [validateMCQQuestion, Option.bind_eq_bind, Option.bind_eq_some] at h
  obtain ⟨q, hq, h⟩ := h
  obtain ⟨opts, hopts, h⟩ := h
  obtain ⟨ca, hca, h⟩ := h
  by_cases hm : matchesAD ca
  · rw [if_pos hm] at h
    simp only [Option.bind_eq_some] at h
    obtain ⟨ex, hex, h⟩ := h
    injection h with h2
    subst h2
    refine ⟨asStr_eq_some.mp hq, ?_, asStr_eq_some.mp hca, hm, asStr_eq_some.mp hex⟩
    obtain ⟨oj, hoj, hov⟩ := hopts
    rw [hoj]
    exact hov
  · rw [if_neg hm] at h
    exact Option.noConfusion h

/-- Inversion for successfully validated metadata: subject is exactly the
string found under `"subject"` (with no constraint on its value),
difficulty is the literal found, tags are exactly the strings found. -/
theorem validateExtractedMetadata_some_inv {fs : List (String × Json)}
    {md : ExtractedMetadata} (h : validateExtractedMetadata (.obj fs) = some md) :
    Json.lookupKey fs "subject" = some (.str md.subject) ∧
    Json.lookupKey fs "difficulty" = some (.str md.difficulty.toName) ∧
    Json.lookupKey fs "tags" = some (.arr (md.tags.map Json.str)) := by
  simp only [validateExtractedMetadata, Option.bind_eq_bind, Option.bind_eq_some] at h
  obtain ⟨sbj, hs, h⟩ := h
  obtain ⟨d, hd, h⟩ := h
  obtain ⟨ts, ht, h⟩ := h
  injection h with h2
  subst h2
  exact ⟨asStr_eq_some.mp hs, asDifficulty_eq_some hd, asStrList_eq_some ht⟩

/-- Inversion for successfully validated options: the four fixed keys
were present as strings. -/
theorem validateMCQOptions_some_inv {j : Json} {o : MCQOptions}
    (h : validateMCQOptions j = some o) :
    ∃ fs, j = Json.obj fs ∧
      Json.lookupKey fs "A" = some (.str o.A) ∧
      Json.lookupKey fs "B" = some (.str o.B) ∧
      Json.lookupKey fs "C" = some (.str o.C) ∧
      Json.lookupKey fs "D" = some (.str o.D) := by
  cases j with
  | obj fs =>
      refine ⟨fs, rfl, ?_⟩
      simp only [validateMCQOptions, Option.bind_eq_bind, Option.bind_eq_some] at h
      obtain ⟨a, ha, h⟩ := h
      obtain ⟨b, hb, h⟩ := h
      obtain ⟨c, hc, h⟩ := h
      obtain ⟨d, hd, h⟩ := h
      injection h with h2
      subst h2
      exact ⟨asStr_eq_some.mp ha, asStr_eq_some.mp hb, asStr_eq_some.mp hc,
        asStr_eq_some.mp hd⟩
  | null => simp [validateMCQOptions] at h
  | bool b => simp [validateMCQOptions] at h
  | num n => simp [validateMCQOptions] at h
  | str s => simp [validateMCQOptions] at h
  | arr xs => simp [validateMCQOptions] at h

/-- Retrying forever: when no execution succeeds, the driver performs one
execution per remaining budget unit plus the final failing one, and ends
in FAILURE. -/
theorem celeryRetryGo_const_fail (attempt : Nat → QOutcome)
    (h : ∀ k, (attempt k).isSuccess = false) :
    ∀ (r k : Nat), celeryRetryGo attempt r k = (.failure, k + r + 1) := by
  intro r
  induction r with
  | zero =>
      intro k
      have hk := h k
      cases ha : attempt k <;> simp [celeryRetryGo, ha, QOutcome.isSuccess] at hk ⊢
  | succ r ih =>
      intro k
      have hk := h k
      cases ha : attempt k <;> simp [celeryRetryGo, ha, QOutcome.isSuccess] at hk ⊢ <;>
        · rw [ih (k + 1)]
          simp only [Prod.mk.injEq, true_and]
          omega

/-- Generalised STEP-3 fold: starting from any accumulator, the loop
appends exactly the entries of the successfully visited urls, in order. -/
theorem buildKB_enumFrom (env : LlmEnv) :
    ∀ (xs : List Json) (s : Nat) (acc : String),
      List.foldl
        (fun kb iu =>
          match env.call (.visit iu.1) with
          | none => kb
          | some content => kb ++ kbEntry iu.2 content)
        acc (List.enumFrom s xs)
      = acc ++ concatAll ((List.enumFrom s xs).filterMap
          fun iu => (env.call (.visit iu.1)).map (kbEntry iu.2)) := by
  intro xs
  induction xs with
  | nil =>
      intro s acc
      simp [List.enumFrom, concatAll]
  | cons x xs ih =>
      intro s acc
      rw [List.enumFrom_cons, List.foldl_cons, List.filterMap_cons]
      rcases hc : env.call (.visit s) with _ | content
      · simp only [hc]
        rw [ih]
        simp
      · simp only [hc, Option.map_some]
        rw [ih]
        simp only [concatAll]
        rw [String.append_assoc]

/-- The knowledge base is the in-order concatenation of one entry per
successfully visited url. -/
theorem buildKnowledgeBase_eq (env : LlmEnv) (urls : List Json) :
    buildKnowledgeBase env urls =
      concatAll (urls.enum.filterMap fun iu =>
        (env.call (.visit iu.1)).map (kbEntry iu.2)) := by
  have h := buildKB_enumFrom env urls 0 ""
  simpa [buildKnowledgeBase, List.enum] using h

/-- One concept update touches at most the two requested leaf keys when
the LLM response dict is restricted to them. -/
theorem updateConcept_preserve (env : LlmEnv) (i j : Nat)
    (hc : ∀ gfs, conceptOutcome env i j = some (.obj gfs) →
      ∀ kv ∈ gfs, kv.1 = "reading_material" ∨ kv.1 = "mcqs")
    {c c' : Json} (h : updateConcept env i j c = some c') :
    ∀ k, k ≠ "reading_material" → k ≠ "mcqs" →
      Json.objLookup c' k = Json.objLookup c k := by
  intro k hk1 hk2
  cases c with
  | obj cfs =>
      simp only [updateConcept] at h
      rcases ho : conceptOutcome env i j with _ | g <;> rw [ho] at h
      · injection h with h2
        subst h2
        rfl
      · cases g with
        | obj gfs =>
            dsimp only at h
            by_cases hkeys : (Json.hasKey gfs "reading_material" && Json.hasKey gfs "mcqs") = true
            · rw [if_pos hkeys] at h
              injection h with h2
              subst h2
              simp only [Json.objLookup]
              refine lookupKey_dictUpdate_of_notMem cfs gfs k (fun kv hm hkv => ?_)
              rcases hc gfs ho kv hm with hkv2 | hkv2
              · exact hk1 (hkv.symm.trans hkv2)
              · exact hk2 (hkv.symm.trans hkv2)
            · rw [if_neg hkeys] at h
              injection h with h2
              subst h2
              rfl
        | null => dsimp only at h; injection h with h2; subst h2; rfl
        | bool b => dsimp only at h; injection h with h2; subst h2; rfl
        | num n => dsimp only at h; injection h with h2; subst h2; rfl
        | str s => dsimp only at h; injection h with h2; subst h2; rfl
        | arr xs => dsimp only at h; injection h with h2; subst h2; rfl
  | null => exact Option.noConfusion h
  | bool b => exact Option.noConfusion h
  | num n => exact Option.noConfusion h
  | str s => exact Option.noConfusion h
  | arr xs => exact Option.noConfusion h

/-- A skeleton that fails the STEP-4 guard (not a dict, or an empty one)
makes the populate phase return `None`. -/
theorem v2Populate_not_obj (env : LlmEnv) (lp : Json)
    (hlp : lp.isNonEmptyObj = false) : v2Populate env lp = none := by
  cases lp with
  | obj fs =>
      cases fs with
      | nil => rfl
      | cons f rest => simp [Json.isNonEmptyObj] at hlp
  | null => rfl
  | bool b => rfl
  | num n => rfl
  | str s => rfl
  | arr xs => rfl

/-! ## Claim C1 -/

/-- C1 (amended): during SourceDiscovery, a transport failure, a parse
failure, or a parsed response carrying no `urls` value (a non-dict, or a
dict without the key) leaves the pipeline running with an empty source
list; but a present, wrong-typed `urls` value is not caught by this step —
it propagates verbatim, so a non-sized value (such as a number) aborts the
whole run at the `len(urls)` log line with a null result, and a string
value becomes a truthy source list iterated character-wise. A transport or
parse failure during SkeletonGeneration (and likewise a skeleton that is
not a non-empty JSON object) makes the whole pipeline abort with a null
result. Contrary to the original claim the job never ends in the failed
terminal state: `create_learning_path_v2` catches every exception and
returns, so the Celery job always maps to status "completed". -/
theorem C1_fatal_boundary (env : LlmEnv) (payload : List (String × Json)) :
    (env.call .search = none → step1Urls env = .arr []) ∧
    (∀ c, env.call .search = some (some c) → env.parse c = none →
      step1Urls env = .arr []) ∧
    (∀ c v, env.call .search = some (some c) → env.parse c = some v →
      Json.objLookup v "urls" = none → step1Urls env = .arr []) ∧
    (∀ c v u, c ≠ "" → env.call .search = some (some c) → env.parse c = some v →
      Json.objLookup v "urls" = some u → step1Urls env = u) ∧
    (Json.pyLen (step1Urls env) = none → create_learning_path_v2 env payload = none) ∧
    ((env.call .skeleton).bind (parseContent env) = none →
      create_learning_path_v2 env payload = none) ∧
    (∀ lp, (env.call .skeleton).bind (parseContent env) = some lp →
      lp.isNonEmptyObj = false → create_learning_path_v2 env payload = none) ∧
    (get_job_status (terminalStateOf (v2Run env payload))
        (create_learning_path_v2 env payload)).1 = "completed" := by
  refine ⟨?_, ?_, ?_, ?_, ?_, ?_, ?_, rfl⟩
  · intro h
    simp [step1Urls, h]
  · intro c h hp
    by_cases hc : c = "" <;> simp [step1Urls, h, hc, hp]
  · intro c v h hp hl
    by_cases hc : c = ""
    · simp [step1Urls, h, hc]
    · cases v <;>
        simp_all [step1Urls, h, hc, hp, Json.objLookup, Json.dictGet]
  · intro c v u hc h hp hl
    cases v with
    | obj fs =>
        simp only [Json.objLookup] at hl
        simp [step1Urls, h, hc, hp, Json.dictGet, hl]
    | null => exact Option.noConfusion hl
    | bool b => exact Option.noConfusion hl
    | num n => exact Option.noConfusion hl
    | str s => exact Option.noConfusion hl
    | arr xs => exact Option.noConfusion hl
  · intro h
    cases ht : Json.pyTruthy (Json.dictGet payload "topic" Json.null) with
    | false => simp [create_learning_path_v2, ht]
    | true =>
        rcases hk : env.groqApiKey with _ | k
        · simp [create_learning_path_v2, ht, hk]
        · by_cases hke : k = ""
          · simp [create_learning_path_v2, ht, hk, hke]
          · simp only [create_learning_path_v2, ht, hk, hke, Bool.not_true, if_false]
            simp [v2AfterSearch, h]
  · intro h
    cases ht : Json.pyTruthy (Json.dictGet payload "topic" Json.null) with
    | false => simp [create_learning_path_v2, ht]
    | true =>
        rcases hk : env.groqApiKey with _ | k
        · simp [create_learning_path_v2, ht, hk]
        · by_cases hke : k = ""
          · simp [create_learning_path_v2, ht, hk, hke]
          · simp only [create_learning_path_v2, ht, hk, hke, Bool.not_true, if_false]
            simp only [v2AfterSearch, h]
            cases hL : Json.pyLen (step1Urls env) <;> simp [hke]
  · intro lp h hlp
    cases ht : Json.pyTruthy (Json.dictGet payload "topic" Json.null) with
    | false => simp [create_learning_path_v2, ht]
    | true =>
        rcases hk : env.groqApiKey with _ | k
        · simp [create_learning_path_v2, ht, hk]
        · by_cases hke : k = ""
          · simp [create_learning_path_v2, ht, hk, hke]
          · simp only [create_learning_path_v2, ht, hk, hke, Bool.not_true, if_false]
            simp only [v2AfterSearch, h]
            cases hL : Json.pyLen (step1Urls env) <;>
              cases hT : Json.pyTruthy (step1Urls env) <;>
                cases hI : Json.pyIter (step1Urls env) <;>
                  simp [hke, hT, hI, v2Populate_not_obj env lp hlp]

/-- Closed instance of `C1_fatal_boundary`: under `envAllFail` (every call
raises) the source list degrades to empty, the run returns a null result
and the job still reports "completed"; under `envBadUrls` the wrong-typed
`urls` value propagates and its non-sized `len` aborts the whole run. -/
theorem C1_fatal_boundary_witness :
    step1Urls envAllFail = .arr [] ∧
    create_learning_path_v2 envAllFail payloadRot = none ∧
    (get_job_status (terminalStateOf (v2Run envAllFail payloadRot))
        (create_learning_path_v2 envAllFail payloadRot)).1 = "completed" ∧
    step1Urls envBadUrls = .num 5 ∧
    create_learning_path_v2 envBadUrls payloadRot = none := by
  obtain ⟨h1, h2, h3, h4, h5, h6, h7, h8⟩ := C1_fatal_boundary envAllFail payloadRot
  obtain ⟨g1, g2, g3, g4, g5, g6, g7, g8⟩ := C1_fatal_boundary envBadUrls payloadRot
  have hu : step1Urls envBadUrls = .num 5 :=
    g4 "srch" (.obj [("urls", .num 5)]) (.num 5) (by decide) rfl rfl rfl
  refine ⟨h1 rfl, h6 rfl, h8, hu, g5 ?_⟩
  rw [hu]
  rfl

/-- C1 counterexample: three concrete runs refute the claim. Under
`envSkelFail` a transport failure at the SkeletonGeneration call aborts
the pipeline with a null result, yet the job's terminal status is
"completed", not the "failed" state the claim requires. Under
`envBadUrls` a SourceDiscovery schema failure (`{"urls": 5}`) does not
leave the pipeline running with an empty source list — the whole run
aborts at `len(urls)` and returns a null result even though the skeleton
step would succeed. Under `envStrUrls` (`{"urls": "ab"}`) the job
completes with the skeleton populated, but the source list was the truthy
string "ab", not the empty list. -/
theorem C1_counterexample :
    (create_learning_path_v2 envSkelFail payloadRot = none ∧
     (get_job_status (terminalStateOf (v2Run envSkelFail payloadRot))
         (create_learning_path_v2 envSkelFail payloadRot)).1 = "completed" ∧
     "completed" ≠ "failed") ∧
    (step1Urls envBadUrls = .num 5 ∧
     create_learning_path_v2 envBadUrls payloadRot = none) ∧
    (step1Urls envStrUrls = .str "ab" ∧
     Json.pyTruthy (.str "ab") = true ∧
     create_learning_path_v2 envStrUrls payloadRot =
       some (.obj [("topic", .str "Chapter"),
         ("content", .arr [.obj topic0fields])])) :=
  ⟨⟨rfl, rfl, by decide⟩, ⟨rfl, rfl⟩, ⟨rfl, rfl, rfl⟩⟩

/-- The STEP-4a merge touches at most the three requested leaf keys when
the LLM response dict is restricted to them. -/
theorem topicFields1_preserve (env : LlmEnv) (i : Nat) (tfs : List (String × Json))
    (hd : ∀ dfs, detailsOutcome env i = some (.obj dfs) →
      ∀ kv ∈ dfs, kv.1 = "prerequisites" ∨ kv.1 = "problem_solving_tips" ∨
        kv.1 = "common_pitfalls") :
    ∀ k, k ≠ "prerequisites" → k ≠ "problem_solving_tips" → k ≠ "common_pitfalls" →
      Json.lookupKey (topicFields1 env i tfs) k = Json.lookupKey tfs k := by
  intro k hk1 hk2 hk3
  unfold topicFields1
  rcases hdo : detailsOutcome env i with _ | dv
  · rfl
  · cases dv with
    | obj dfs =>
        refine lookupKey_dictUpdate_of_notMem tfs dfs k (fun kv hm hkv => ?_)
        rcases hd dfs hdo kv hm with hkv2 | hkv2 | hkv2
        · exact hk1 (hkv.symm.trans hkv2)
        · exact hk2 (hkv.symm.trans hkv2)
        · exact hk3 (hkv.symm.trans hkv2)
    | null => rfl
    | bool b => rfl
    | num n => rfl
    | str s => rfl
    | arr xs => rfl

/-! ## Claim C2 -/

/-- C2 counterexample: under `envShape` the STEP-4a call answers with the
dict `{"topic_name": "evil"}`; the `dict.update` merge overwrites the
skeleton's `topic_name` ("T" becomes "evil"), so the structure produced by
SkeletonGeneration is altered by TopicElaboration, not merely filled. -/
theorem C2_counterexample :
    create_learning_path_v2 envShape payloadRot =
      some (.obj [("topic", .str "Chapter"),
        ("content", .arr
          [.obj [("topic_name", .str "evil"),
                 ("prerequisites", .arr []),
                 ("problem_solving_tips", .arr []),
                 ("common_pitfalls", .arr []),
                 ("concepts", .arr
                   [.obj [("concept_name", .str "C"), ("reading_material", .str ""),
                          ("mcqs", .arr [])]])]])]) ∧
    "evil" ≠ "T" :=
  ⟨rfl, by decide⟩

/-- C2 (amended): the merge steps write through Python `dict.update`, so
the skeleton shape is preserved exactly when the elaboration responses
contain only the requested leaf keys: if the STEP-4a dict for topic `i`
only holds `prerequisites` / `problem_solving_tips` / `common_pitfalls`
and every STEP-4b dict only holds `reading_material` / `mcqs`, then a
successful `updateTopic` leaves every other topic field — in particular
`topic_name` — unchanged, keeps the `concepts` list at the same length and
leaves every non-leaf concept field — in particular `concept_name` —
unchanged. The code itself does not enforce this key restriction. -/
theorem C2_skeleton_shape (env : LlmEnv) (i : Nat) (tfs : List (String × Json))
    (t' : Json)
    (hd : ∀ dfs, detailsOutcome env i = some (.obj dfs) →
      ∀ kv ∈ dfs, kv.1 = "prerequisites" ∨ kv.1 = "problem_solving_tips" ∨
        kv.1 = "common_pitfalls")
    (hc : ∀ j gfs, conceptOutcome env i j = some (.obj gfs) →
      ∀ kv ∈ gfs, kv.1 = "reading_material" ∨ kv.1 = "mcqs")
    (hu : updateTopic env i (.obj tfs) = some t') :
    (∀ k, k ≠ "prerequisites" → k ≠ "problem_solving_tips" →
      k ≠ "common_pitfalls" → k ≠ "concepts" →
      Json.objLookup t' k = Json.lookupKey tfs k) ∧
    (∀ cs, Json.lookupKey tfs "concepts" = some (.arr cs) →
      ∃ cs', Json.objLookup t' "concepts" = some (.arr cs') ∧
        cs'.length = cs.length ∧
        ∀ n (hn : n < cs.length) (hn' : n < cs'.length) k,
          k ≠ "reading_material" → k ≠ "mcqs" →
          Json.objLookup (cs'.get ⟨n, hn'⟩) k = Json.objLookup (cs.get ⟨n, hn⟩) k) := by
  have hpres := topicFields1_preserve env i tfs hd
  simp only [updateTopic] at hu
  rcases hcs : Json.lookupKey (topicFields1 env i tfs) "concepts" with _ | cv
  · rw [hcs] at hu
    dsimp only at hu
    injection hu with h2
    subst h2
    constructor
    · intro k hk1 hk2 hk3 hk4
      simp only [Json.objLookup]
      exact hpres k hk1 hk2 hk3
    · intro cs hcs2
      have hcc := hpres "concepts" (by decide) (by decide) (by decide)
      rw [hcs, hcs2] at hcc
      exact Option.noConfusion hcc
  · rw [hcs] at hu
    cases cv with
    | arr cs0 =>
        dsimp only at hu
        rcases htr : optionTraverse (fun jc => updateConcept env i jc.1 jc.2) cs0.enum
          with _ | cs2 <;> rw [htr] at hu
        · exact Option.noConfusion hu
        · injection hu with h2
          subst h2
          obtain ⟨hlen, hidx⟩ := optionTraverse_enum_some htr
          constructor
          · intro k hk1 hk2 hk3 hk4
            simp only [Json.objLookup]
            rw [lookupKey_setKey, if_neg (fun h => hk4 h.symm)]
            exact hpres k hk1 hk2 hk3
          · intro cs hcs2
            have hcc := hpres "concepts" (by decide) (by decide) (by decide)
            rw [hcs, hcs2] at hcc
            injection hcc with hcc2
            injection hcc2 with hcc3
            subst hcc3
            refine ⟨cs2, ?_, hlen, ?_⟩
            · simp only [Json.objLookup]
              rw [lookupKey_setKey, if_pos rfl]
            · intro n hn hn' k hk1 hk2
              exact updateConcept_preserve env i n (hc n) (hidx n hn hn') k hk1 hk2
    | null =>
        dsimp only at hu
        injection hu with h2
        subst h2
        refine ⟨?_, ?_⟩
        · intro k hk1 hk2 hk3 hk4
          simp only [Json.objLookup]
          exact hpres k hk1 hk2 hk3
        · intro cs hcs2
          have hcc := hpres "concepts" (by decide) (by decide) (by decide)
          rw [hcs, hcs2] at hcc
          injection hcc with hcc2
          exact Json.noConfusion hcc2
    | bool b =>
        dsimp only at hu
        injection hu with h2
        subst h2
        refine ⟨?_, ?_⟩
        · intro k hk1 hk2 hk3 hk4
          simp only [Json.objLookup]
          exact hpres k hk1 hk2 hk3
        · intro cs hcs2
          have hcc := hpres "concepts" (by decide) (by decide) (by decide)
          rw [hcs, hcs2] at hcc
          injection hcc with hcc2
          exact Json.noConfusion hcc2
    | num n =>
        dsimp only at hu
        injection hu with h2
        subst h2
        refine ⟨?_, ?_⟩
        · intro k hk1 hk2 hk3 hk4
          simp only [Json.objLookup]
          exact hpres k hk1 hk2 hk3
        · intro cs hcs2
          have hcc := hpres "concepts" (by decide) (by decide) (by decide)
          rw [hcs, hcs2] at hcc
          injection hcc with hcc2
          exact Json.noConfusion hcc2
    | str s =>
        dsimp only at hu
        injection hu with h2
        subst h2
        refine ⟨?_, ?_⟩
        · intro k hk1 hk2 hk3 hk4
          simp only [Json.objLookup]
          exact hpres k hk1 hk2 hk3
        · intro cs hcs2
          have hcc := hpres "concepts" (by decide) (by decide) (by decide)
          rw [hcs, hcs2] at hcc
          injection hcc with hcc2
          exact Json.noConfusion hcc2
    | obj ofs =>
        dsimp only at hu
        injection hu with h2
        subst h2
        refine ⟨?_, ?_⟩
        · intro k hk1 hk2 hk3 hk4
          simp only [Json.objLookup]
          exact hpres k hk1 hk2 hk3
        · intro cs hcs2
          have hcc := hpres "concepts" (by decide) (by decide) (by decide)
          rw [hcs, hcs2] at hcc
          injection hcc with hcc2
          exact Json.noConfusion hcc2

/-- Closed instance of `C2_skeleton_shape` under `envGoodFill`, whose
responses hold exactly the requested leaf keys: the topic keeps its
`topic_name`, its concept count, and its concept's `concept_name`. -/
theorem C2_skeleton_shape_witness :
    Json.objLookup topic0filled "topic_name" =
      Json.lookupKey topic0fields "topic_name" := by
  have hd : ∀ dfs, detailsOutcome envGoodFill 0 = some (.obj dfs) →
      ∀ kv ∈ dfs, kv.1 = "prerequisites" ∨ kv.1 = "problem_solving_tips" ∨
        kv.1 = "common_pitfalls" := by
    intro dfs h
    have hD : detailsOutcome envGoodFill 0 =
        some (.obj
          [("prerequisites", .arr [.str "p"]),
           ("problem_solving_tips", .arr [.str "s"]),
           ("common_pitfalls", .arr [.str "c"])]) := rfl
    rw [hD] at h
    injection h with h2
    injection h2 with h3
    rw [← h3]
    decide
  have hc : ∀ j gfs, conceptOutcome envGoodFill 0 j = some (.obj gfs) →
      ∀ kv ∈ gfs, kv.1 = "reading_material" ∨ kv.1 = "mcqs" := by
    intro j gfs h
    have hG : conceptOutcome envGoodFill 0 j =
        some (.obj [("reading_material", .str "r"), ("mcqs", .arr [.str "m"])]) := rfl
    rw [hG] at h
    injection h with h2
    injection h2 with h3
    rw [← h3]
    decide
  have hu : updateTopic envGoodFill 0 (.obj topic0fields) = some topic0filled := rfl
  exact (C2_skeleton_shape envGoodFill 0 topic0fields topic0filled hd hc hu).1
    "topic_name" (by decide) (by decide) (by decide) (by decide)

/-! ## Claim C3 -/

/-- C3 counterexample: with an LLM double that always returns invalid
JSON, the `generate_question` job ends FAILURE only after 4 executions —
the initial attempt plus `max_retries = 3` — not after the 3 attempts the
claim states. -/
theorem C3_counterexample :
    generate_question_job (fun _ => qEnvBadJson) qPayload = (.failure, 4) ∧
    (4 : Nat) ≠ 3 :=
  ⟨rfl, by decide⟩

/-- C3 (amended): when every execution of the `generate_question` body
fails — for instance because every LLM response fails JSON parsing or
schema validation — the Celery driver with `max_retries = 3` reaches the
terminal FAILURE state after exactly 4 executions, the initial attempt
plus the configured ceiling of 3 retries, and no more. -/
theorem C3_retry_ceiling (envs : Nat → QEnv) (payload : List (String × Json))
    (h : ∀ k, (generate_question_once (envs k) payload).isSuccess = false) :
    generate_question_job envs payload = (.failure, 4) := by
  have h4 := celeryRetryGo_const_fail
    (fun k => generate_question_once (envs k) payload) h 3 0
  simpa [generate_question_job, celeryRetryRun] using h4

/-- Closed instance of `C3_retry_ceiling` at the always-invalid-JSON LLM
double. -/
theorem C3_retry_ceiling_witness :
    generate_question_job (fun _ => qEnvBadJson) [("query", .str "q")] = (.failure, 4) :=
  C3_retry_ceiling (fun _ => qEnvBadJson) [("query", .str "q")] (fun _ => rfl)

/-! ## Claim C4 -/

/-- C4 counterexample: a payload missing the required `query` does not
fail the job immediately — the `ValidationError` is routed to
`self.retry`, and with every execution failing the same way the job
performs 4 executions (3 retries) before its terminal FAILURE,
contradicting "fails immediately with no retry attempts". -/
theorem C4_counterexample :
    generate_question_once qEnvAny [] = .retryValidation ∧
    generate_question_job (fun _ => qEnvAny) [] = (.failure, 4) ∧
    (4 : Nat) ≠ 1 :=
  ⟨rfl, rfl, by decide⟩

/-- C4 (amended): a missing required credential or input never
retry-loops in the learning-path task but always does in the question
task, and in neither task does the job "fail immediately": in
`create_learning_path_v2` a falsy or missing `topic`, or a missing
`GROQ_API_KEY`, aborts the run without retry but the task returns `None`,
so the job terminates "completed" with a null result; in
`generate_question` a missing `query` or a missing `GROQ_API_KEY` raises
inside the task body and is routed through `self.retry` like any other
failure, so the job reaches FAILURE only after the full ceiling of 4
executions. -/
theorem C4_config_failure (env : LlmEnv) (payload : List (String × Json))
    (envs : Nat → QEnv) (qp : List (String × Json)) :
    (Json.pyTruthy (Json.dictGet payload "topic" .null) = false →
      create_learning_path_v2 env payload = none ∧
      (get_job_status (terminalStateOf (v2Run env payload))
          (create_learning_path_v2 env payload)).1 = "completed") ∧
    (env.groqApiKey = none → create_learning_path_v2 env payload = none) ∧
    (Json.lookupKey qp "query" = none → generate_question_job envs qp = (.failure, 4)) ∧
    ((∀ k, (envs k).groqApiKey = none) → generate_question_job envs qp = (.failure, 4)) := by
  refine ⟨?_, ?_, ?_, ?_⟩
  · intro h
    exact ⟨by simp [create_learning_path_v2, h], rfl⟩
  · intro h
    cases ht : Json.pyTruthy (Json.dictGet payload "topic" Json.null) with
    | false => simp [create_learning_path_v2, ht]
    | true => simp [create_learning_path_v2, ht, h]
  · intro h
    have h4 := celeryRetryGo_const_fail (fun k => generate_question_once (envs k) qp)
      (fun k => by simp [generate_question_once, h, asStr, QOutcome.isSuccess]) 3 0
    simpa [generate_question_job, celeryRetryRun] using h4
  · intro h
    have h4 := celeryRetryGo_const_fail (fun k => generate_question_once (envs k) qp)
      (fun k => by
        rcases hq : asStr (Json.lookupKey qp "query") with _ | q <;>
          simp [generate_question_once, hq, h k, QOutcome.isSuccess]) 3 0
    simpa [generate_question_job, celeryRetryRun] using h4

/-- Closed instance of `C4_config_failure`: a missing topic completes the
learning-path job with a null result; a missing query and a missing API
key each drive the question job through all 4 executions to FAILURE. -/
theorem C4_config_failure_witness :
    create_learning_path_v2 envNoKey [] = none ∧
    generate_question_job (fun _ => qEnvNoKey) [] = (.failure, 4) ∧
    generate_question_job (fun _ => qEnvNoKey) [("query", .str "q")] = (.failure, 4) := by
  obtain ⟨h1, h2, h3, h4⟩ := C4_config_failure envNoKey [] (fun _ => qEnvNoKey) []
  obtain ⟨g1, g2, g3, g4⟩ :=
    C4_config_failure envNoKey [] (fun _ => qEnvNoKey) [("query", .str "q")]
  exact ⟨(h1 rfl).1, h3 rfl, g4 (fun _ => rfl)⟩

/-! ## Claim C5 -/

/-- C5 counterexample: a job identifier that was never enqueued surfaces
from Celery with native state PENDING, so the endpoint returns status
"queued" with a null result — not the status "unknown" the claim
requires. -/
theorem C5_counterexample :
    get_job_status (nativeStatusOf [] "no-such-job") none = ("queued", none) ∧
    "queued" ≠ "unknown" :=
  ⟨rfl, by decide⟩

/-- C5 (amended): for a job identifier with no backend record the
endpoint returns status "queued" — Celery reports unknown task ids as
PENDING — with a null result; and for every native state this system can
reach (revocation is never used), the result field is null unless the
returned status is "completed" or "failed". -/
theorem C5_unknown_job (store : List (String × CeleryState)) (id : String)
    (st : CeleryState) (stored : Option Json)
    (hid : store.lookup id = none) (hst : st ≠ .revoked) :
    get_job_status (nativeStatusOf store id) stored = ("queued", none) ∧
    ((get_job_status st stored).2 ≠ none →
      (get_job_status st stored).1 = "completed" ∨
      (get_job_status st stored).1 = "failed") := by
  constructor
  · simp [nativeStatusOf, hid, get_job_status, statusMapping, celeryReady]
  · intro h2
    cases st with
    | success => exact Or.inl rfl
    | failure => exact Or.inr rfl
    | revoked => exact absurd rfl hst
    | pending => exact absurd rfl h2
    | started => exact absurd rfl h2
    | retryState => exact absurd rfl h2

/-- Closed instance of `C5_unknown_job` at the empty backend and native
state PENDING. -/
theorem C5_unknown_job_witness :
    get_job_status (nativeStatusOf [] "x") (some .null) = ("queued", none) :=
  (C5_unknown_job [] "x" .pending (some .null) rfl (by decide)).1

/-! ## Claim C6 -/

/-- C6 (confirmed): schema validation is all-or-nothing — a parsed
response that omits any required field of `MCQQuestion` or
`ExtractedMetadata` is rejected outright, a `correct_answer` outside the
`^[A-D]$` pattern invalidates the whole MCQ, and a validation success
forces every required field to have been present and to populate the
validated value, never a partially-populated success. -/
theorem C6_all_or_nothing (fs : List (String × Json)) :
    ((Json.lookupKey fs "question" = none ∨ Json.lookupKey fs "options" = none ∨
      Json.lookupKey fs "correct_answer" = none ∨
      Json.lookupKey fs "explanation" = none) →
      validateMCQQuestion (.obj fs) = none) ∧
    ((Json.lookupKey fs "subject" = none ∨ Json.lookupKey fs "difficulty" = none ∨
      Json.lookupKey fs "tags" = none) →
      validateExtractedMetadata (.obj fs) = none) ∧
    (∀ ca, Json.lookupKey fs "correct_answer" = some (.str ca) →
      matchesAD ca = false → validateMCQQuestion (.obj fs) = none) ∧
    (∀ m, validateMCQQuestion (.obj fs) = some m →
      Json.lookupKey fs "question" = some (.str m.question) ∧
      Json.lookupKey fs "correct_answer" = some (.str m.correct_answer) ∧
      matchesAD m.correct_answer = true ∧
      Json.lookupKey fs "explanation" = some (.str m.explanation)) ∧
    (∀ md, validateExtractedMetadata (.obj fs) = some md →
      Json.lookupKey fs "subject" = some (.str md.subject) ∧
      Json.lookupKey fs "tags" = some (.arr (md.tags.map Json.str))) := by
  refine ⟨?_, ?_, ?_, ?_, ?_⟩
  · intro h
    rcases hv : validateMCQQuestion (.obj fs) with _ | m
    · rfl
    · obtain ⟨h1, h2, h3, h4, h5⟩ := validateMCQQuestion_some_inv hv
      rcases h with h | h | h | h
      · rw [h] at h1
        exact Option.noConfusion h1
      · rw [h] at h2
        exact Option.noConfusion h2
      · rw [h] at h3
        exact Option.noConfusion h3
      · rw [h] at h5
        exact Option.noConfusion h5
  · intro h
    rcases hv : validateExtractedMetadata (.obj fs) with _ | md
    · rfl
    · obtain ⟨h1, h2, h3⟩ := validateExtractedMetadata_some_inv hv
      rcases h with h | h | h
      · rw [h] at h1
        exact Option.noConfusion h1
      · rw [h] at h2
        exact Option.noConfusion h2
      · rw [h] at h3
        exact Option.noConfusion h3
  · intro ca hca hfa
    rcases hv : validateMCQQuestion (.obj fs) with _ | m
    · rfl
    · obtain ⟨h1, h2, h3, h4, h5⟩ := validateMCQQuestion_some_inv hv
      have h6 := hca.symm.trans h3
      injection h6 with h7
      injection h7 with h8
      rw [h8] at hfa
      rw [h4] at hfa
      exact Bool.noConfusion hfa
  · intro m hv
    obtain ⟨h1, h2, h3, h4, h5⟩ := validateMCQQuestion_some_inv hv
    exact ⟨h1, h3, h4, h5⟩
  · intro md hv
    obtain ⟨h1, h2, h3⟩ := validateExtractedMetadata_some_inv hv
    exact ⟨h1, h3⟩

/-- Closed instance of `C6_all_or_nothing`: the empty object is rejected
by both validators, and the valid MCQ fixture populates its fields from
the parsed response. -/
theorem C6_all_or_nothing_witness :
    validateMCQQuestion (.obj []) = none ∧
    validateExtractedMetadata (.obj []) = none ∧
    Json.lookupKey mcqGoodFields "question" = some (.str mcqGood.question) := by
  refine ⟨(C6_all_or_nothing []).1 (Or.inl rfl),
    (C6_all_or_nothing []).2.1 (Or.inl rfl), ?_⟩
  exact ((C6_all_or_nothing mcqGoodFields).2.2.2.1 mcqGood rfl).1

/-! ## Claim C7 -/

/-- C7 counterexample: metadata with subject "Biology" — outside
{Physics, Chemistry, Mathematics} — passes `ExtractedMetadata` validation,
because the `subject` field is a plain `str`; out-of-set subjects are not
rejected as the claim states. -/
theorem C7_counterexample :
    validateExtractedMetadata (.obj biologyMeta) = some biologyMd ∧
    ("Biology" ≠ "Physics" ∧ "Biology" ≠ "Chemistry" ∧ "Biology" ≠ "Mathematics") :=
  ⟨rfl, by decide⟩

/-- C7 (amended): of the spec's constraints only difficulty and tags are
enforced by validation — every accepted metadata value read its
`difficulty` from one of the literals "easy" / "medium" / "hard" and its
`tags` from a JSON array of strings — while `subject` is required only to
be a string: a value whose subject lies outside
{Physics, Chemistry, Mathematics} is accepted, not rejected. -/
theorem C7_metadata_constraints (fs : List (String × Json)) (md : ExtractedMetadata)
    (h : validateExtractedMetadata (.obj fs) = some md) :
    Json.lookupKey fs "subject" = some (.str md.subject) ∧
    (Json.lookupKey fs "difficulty" = some (.str "easy") ∨
     Json.lookupKey fs "difficulty" = some (.str "medium") ∨
     Json.lookupKey fs "difficulty" = some (.str "hard")) ∧
    Json.lookupKey fs "tags" = some (.arr (md.tags.map Json.str)) := by
  obtain ⟨h1, h2, h3⟩ := validateExtractedMetadata_some_inv h
  refine ⟨h1, ?_, h3⟩
  rcases hdiff : md.difficulty
  · rw [hdiff] at h2
    exact Or.inl h2
  · rw [hdiff] at h2
    exact Or.inr (Or.inl h2)
  · rw [hdiff] at h2
    exact Or.inr (Or.inr h2)

/-- Closed instance of `C7_metadata_constraints` at the accepted
"Biology" metadata fixture. -/
theorem C7_metadata_constraints_witness :
    Json.lookupKey biologyMeta "subject" = some (.str biologyMd.subject) ∧
    (Json.lookupKey biologyMeta "difficulty" = some (.str "easy") ∨
     Json.lookupKey biologyMeta "difficulty" = some (.str "medium") ∨
     Json.lookupKey biologyMeta "difficulty" = some (.str "hard")) ∧
    Json.lookupKey biologyMeta "tags" = some (.arr (biologyMd.tags.map Json.str)) :=
  C7_metadata_constraints biologyMeta biologyMd rfl

/-! ## Claim C8 -/

/-- C8 (confirmed): KnowledgeAcquisition visits the source list strictly
in order, appending exactly one `(url, summary)` entry per successful
visit, in source order; a failed visit is skipped and contributes
nothing; the step is total, and with an array source list the pipeline's
result depends only on the skeleton and populate phases, so this step can
never fail the job; when every visit fails the knowledge base degrades to
the empty string. -/
theorem C8_knowledge_isolation (env : LlmEnv) (urls : List Json) :
    buildKnowledgeBase env urls =
      concatAll (urls.enum.filterMap fun iu =>
        (env.call (.visit iu.1)).map (kbEntry iu.2)) ∧
    ((∀ i, env.call (.visit i) = none) → buildKnowledgeBase env urls = "") ∧
    (∀ us : List Json, v2AfterSearch env (.arr us) =
      Option.bind ((env.call .skeleton).bind (parseContent env)) (v2Populate env)) := by
  refine ⟨buildKnowledgeBase_eq env urls, ?_, ?_⟩
  · intro h
    rw [buildKnowledgeBase_eq]
    have hnil : (urls.enum.filterMap fun iu =>
        (env.call (.visit iu.1)).map (kbEntry iu.2)) = [] := by
      rw [List.filterMap_eq_nil_iff]
      intro iu hm
      rw [h iu.1]
      rfl
    rw [hnil]
    rfl
  · intro us
    rcases hsk : (env.call .skeleton).bind (parseContent env) with _ | lp <;>
      cases ht : Json.pyTruthy (.arr us) <;>
        simp [v2AfterSearch, hsk, ht, Json.pyIter, Json.pyLen]

/-- Closed instance of `C8_knowledge_isolation`: with every visit call
failing, a two-url source list produces the empty knowledge base. -/
theorem C8_knowledge_isolation_witness :
    buildKnowledgeBase envAllFail [.str "a", .str "b"] = "" :=
  (C8_knowledge_isolation envAllFail [.str "a", .str "b"]).2.1 (fun _ => rfl)

/-! ## Claim C9 -/

/-- C9 (confirmed): once both LLM responses validate, the Step-C pure
transform runs with no further failure: the task succeeds with
`task_output`, the output's options list is the dump-ordered list of
`{text, isCorrect}` objects derived from the A–D mapping, the subject is
pushed through the fixed `SUBJECT_ID_MAP` table, and an unmapped subject
leaves the identifier null instead of raising an error. -/
theorem C9_pure_transform (env : QEnv) (payload : List (String × Json))
    (q cm cd : String) (mj mdj : Json) (m : MCQQuestion) (md : ExtractedMetadata)
    (hq : asStr (Json.lookupKey payload "query") = some q)
    (hkey : env.groqApiKey ≠ none)
    (hca : env.call .mcq = some (some cm))
    (hpa : env.parse cm = some mj)
    (hm : validateMCQQuestion mj = some m)
    (hcb : env.call .metadata = some (some cd))
    (hpb : env.parse cd = some mdj)
    (hmd : validateExtractedMetadata mdj = some md) :
    generate_question_once env payload = .success (task_output m md) ∧
    Json.objLookup (final_document m md) "options" =
      some (.arr ((optionItems m.options).map fun kt =>
        .obj [("text", .str kt.2), ("isCorrect", .bool (kt.1 == m.correct_answer))])) ∧
    (∀ i, SUBJECT_ID_MAP.lookup md.subject = some i →
      Json.objLookup (final_document m md) "subject" = some (.str i)) ∧
    (SUBJECT_ID_MAP.lookup md.subject = none →
      Json.objLookup (final_document m md) "subject" = some .null) := by
  refine ⟨?_, ?_, ?_, ?_⟩
  · rcases hk : env.groqApiKey with _ | k
    · exact absurd hk hkey
    · simp [generate_question_once, hq, hk, hca, hpa, hm, hcb, hpb, hmd]
  · simp [final_document, Json.objLookup, Json.lookupKey, transformed_options,
      List.map_map, Function.comp]
  · intro i hi
    simp [final_document, Json.objLookup, Json.lookupKey, hi]
  · intro hn
    simp [final_document, Json.objLookup, Json.lookupKey, hn]

/-- Closed instance of `C9_pure_transform` at the "Biology" fixtures: the
task succeeds and the unmapped subject yields a null identifier. -/
theorem C9_pure_transform_witness :
    generate_question_once qEnvBio qPayload = .success (task_output mcqGood biologyMd) ∧
    Json.objLookup (final_document mcqGood biologyMd) "subject" = some .null := by
  have h := C9_pure_transform qEnvBio qPayload "JEE physics" "mcq" "meta"
    (.obj mcqGoodFields) (.obj biologyMeta) mcqGood biologyMd rfl
    (fun hcon => Option.noConfusion hcon) rfl rfl rfl rfl rfl rfl
  exact ⟨h.1, h.2.2.2 rfl⟩

/-! ## Claim C10 -/

/-- C10 (confirmed): for every MCQ value accepted by `MCQQuestion`
validation, the transformed options list has exactly four entries whose
texts are the A, B, C, D option texts in that fixed order, and exactly
one entry — the one whose key equals the validated `correct_answer` — has
`isCorrect` true. -/
theorem C10_options_transform (j : Json) (m : MCQQuestion)
    (h : validateMCQQuestion j = some m) :
    (transformed_options m).length = 4 ∧
    (transformed_options m).map OptionOut.text =
      [m.options.A, m.options.B, m.options.C, m.options.D] ∧
    (transformed_options m).countP OptionOut.isCorrect = 1 := by
  have hAD : matchesAD m.correct_answer = true := by
    cases j with
    | obj fs => exact (validateMCQQuestion_some_inv h).2.2.2.1
    | null => exact Option.noConfusion h
    | bool b => exact Option.noConfusion h
    | num n => exact Option.noConfusion h
    | str s => exact Option.noConfusion h
    | arr xs => exact Option.noConfusion h
  refine ⟨rfl, rfl, ?_⟩
  have hAD2 : m.correct_answer = "A" ∨ m.correct_answer = "B" ∨
      m.correct_answer = "C" ∨ m.correct_answer = "D" := by
    have h2 := hAD
    simp only [matchesAD, Bool.or_eq_true, decide_eq_true_eq] at h2
    tauto
  rcases hAD2 with h1 | h1 | h1 | h1 <;>
    simp [transformed_options, optionItems, h1, List.countP_cons, List.countP_nil]

/-- Closed instance of `C10_options_transform` at the valid MCQ fixture
(correct answer "B"). -/
theorem C10_options_transform_witness :
    (transformed_options mcqGood).length = 4 ∧
    (transformed_options mcqGood).map OptionOut.text =
      [mcqGood.options.A, mcqGood.options.B, mcqGood.options.C, mcqGood.options.D] ∧
    (transformed_options mcqGood).countP OptionOut.isCorrect = 1 :=
  C10_options_transform (.obj mcqGoodFields) mcqGood rfl
